import Mathlib

/-!
Shallow embedding of the chess move-legality engine of this repository.

The repository contains two parallel implementations:
* a top-level one (`src/board.rs`, `src/chess_move.rs`), embedded here in the
  `Top` namespace, and
* an `engine` one (`src/engine/board.rs`, `src/engine/chess_move.rs`),
  embedded here in the `Engine` namespace.

Machine integers are modelled as `Nat`/`Int`.  Rust `usize` subtraction is
modelled with overflow checking (`checkedSub`): on underflow the program
panics.  An out-of-range array index also panics.  A Rust panic is modelled
by the outcome `RResult.rpanic`.  The `while` loops of the source are given
an explicit fuel parameter; a loop that does not finish within the given
fuel yields `RResult.rdiverge`, and a statement that this holds for every
fuel expresses that the source loop never terminates.
-/

set_option autoImplicit false

/-- Piece colors, as in `src/piece.rs`. -/
inductive PieceColor where
  | White
  | Black
deriving DecidableEq, Repr

/-- Piece kinds, as in `src/piece.rs`. -/
inductive PieceType where
  | King
  | Queen
  | Rook
  | Knight
  | Bishop
  | Pawn
deriving DecidableEq, Repr

/-- A piece: kind plus color, as in `src/piece.rs`. -/
structure Piece where
  piece_type : PieceType
  color : PieceColor
deriving DecidableEq, Repr

/-- Constructor `Piece::new` from `src/piece.rs`. -/
def Piece.new (t : PieceType) (c : PieceColor) : Piece := ⟨t, c⟩

/-- The board: an 8 by 8 grid of optional pieces (`[[Option<Piece>; 8]; 8]`). -/
def BoardGame : Type := Fin 8 → Fin 8 → Option Piece

/-- The all-vacant board (`[[None; 8]; 8]`). -/
def emptyBoard : BoardGame := fun _ _ => none

/-- Read cell `(r, c)`, with the bounds already known to the type.  Out-of-range
coordinates read as vacant; this total wrapper is only ever applied in-range. -/
def getCellD (b : BoardGame) (r c : Nat) : Option Piece :=
  if h : r < 8 ∧ c < 8 then b ⟨r, h.1⟩ ⟨c, h.2⟩ else none

/-- A Rust array read `board[r][c]`: `none` models the bounds-check panic of an
out-of-range index, `some` the value read. -/
def getCell? (b : BoardGame) (r c : Nat) : Option (Option Piece) :=
  if r < 8 ∧ c < 8 then some (getCellD b r c) else none

/-- Write cell `(r, c)` of the board (an out-of-range write changes nothing;
the sources only write through indices validated beforehand). -/
def setCell (b : BoardGame) (r c : Nat) (v : Option Piece) : BoardGame :=
  fun i j => if i.val = r ∧ j.val = c then v else b i j

/-- One whole-rank assignment loop `for i in 0..8 { board[r][i] = Some(p) }`. -/
def fillRow (b : BoardGame) (r : Nat) (p : Piece) : BoardGame :=
  fun i j => if i.val = r then some p else b i j

/-- Rust `usize` subtraction under overflow-checking semantics: `none` models
the underflow panic. -/
def checkedSub (a b : Nat) : Option Nat :=
  if b ≤ a then some (a - b) else none

/-- Rust cast `x as usize` of a (possibly negative) machine integer: wraps
modulo `2 ^ 64`. -/
def asUsize (x : Int) : Nat :=
  (x % (2 : Int) ^ 64).toNat

/-- The closed error taxonomy `MoveError`, identical in both source files. -/
inductive MoveError where
  | OutOfBounds
  | NoPieceAtSource
  | SamePosition
  | CaptureOwnPiece
  | InvalidPawnCapture
  | InvalidPawnMove
  | InvalidRookMove
  | InvalidKnightMove
  | InvalidBishopMove
  | InvalidKingMove
  | InvalidQueenMove
  | PieceBlocking
deriving DecidableEq, Repr

/-- Outcome of running a fallible, possibly panicking, possibly looping piece
of source code: success, a `MoveError`, a panic, or non-termination within the
supplied fuel. -/
inductive RResult where
  | rok
  | rerr (e : MoveError)
  | rpanic
  | rdiverge
deriving DecidableEq, Repr

/-- Errors of `src/engine/error.rs` (`SquareError`). -/
inductive SquareError where
  | InvalidLength
  | InvalidColumn
  | InvalidRow
  | OutOfBounds
deriving DecidableEq, Repr

/-- The engine square type `Square(u8)`: a flat cell index. -/
abbrev Square : Type := Nat

/-- Method `Square::row` (`self.0 / 8`). -/
def Square.row (s : Square) : Nat := s / 8

/-- Method `Square::col` (`self.0 % 8`). -/
def Square.col (s : Square) : Nat := s % 8

/-- Constructor `Square::try_from((row, col))` from `src/engine/chess_move.rs`:
accepts exactly the coordinates with both components below 8. -/
def Square.try_from (row col : Nat) : Except SquareError Square :=
  if row < 8 ∧ col < 8 then .ok (row * 8 + col) else .error .OutOfBounds

/-- Method `Square::offset` from `src/engine/chess_move.rs`: shift by a row and
column delta, returning `none` when the result leaves the grid. -/
def Square.offset (s : Square) (dRow dCol : Int) : Option Square :=
  let row : Int := (Square.row s : Int) + dRow
  let col : Int := (Square.col s : Int) + dCol
  if 0 ≤ row ∧ row < 8 ∧ 0 ≤ col ∧ col < 8 then
    some ((row * 8 + col).toNat)
  else
    none

/-- The engine move type: a pair of squares (`ChessMove` of
`src/engine/chess_move.rs`; the source field names are `from` and `to`). -/
structure Engine.ChessMove where
  fromSq : Square
  toSq : Square
deriving DecidableEq, Repr

/-- Function `parse_position` of `src/engine/chess_move.rs`, on the byte
sequence of the input string.  The source matches the column byte against the
range pattern `b'a'..b'h'` and the row byte against `b'1'..b'8'`; both are
half-open, so the upper bounds `'h'` and `'8'` are not matched. -/
def Engine.parse_position (bytes : List Nat) : Except SquareError Square :=
  match bytes with
  | [b0, b1] =>
    if 97 ≤ b0 ∧ b0 < 104 then
      if 49 ≤ b1 ∧ b1 < 56 then
        Square.try_from (b1 - 49) (b0 - 97)
      else .error .InvalidRow
    else .error .InvalidColumn
  | _ => .error .InvalidLength

/-- Function `parse_move` of `src/engine/chess_move.rs`: a 4-byte string made
of two parsed cells. -/
def Engine.parse_move (input : List Nat) : Except SquareError Engine.ChessMove :=
  if input.length ≠ 4 then .error .InvalidLength
  else
    match Engine.parse_position (input.take 2) with
    | .error e => .error e
    | .ok f =>
      match Engine.parse_position (input.drop 2) with
      | .error e => .error e
      | .ok t => .ok ⟨f, t⟩

/-- The top-level position type `Position` of `src/chess_move.rs`. -/
structure Position where
  row : Nat
  column : Nat
deriving DecidableEq, Repr

/-- The top-level move type `ChessMove` of `src/chess_move.rs` (source field
names `from` and `to`). -/
structure Top.ChessMove where
  fromP : Position
  toP : Position
deriving DecidableEq, Repr

/-- Factory `BoardFactory::create_standard_position` of `src/engine/board.rs`:
Black back rank on row 0, Black pawns on row 1, White pawns on row 6, White
back rank on row 7. -/
def Engine.create_standard_position : BoardGame :=
  let b := emptyBoard
  let b := setCell b 0 0 (some (Piece.new .Rook .Black))
  let b := setCell b 0 1 (some (Piece.new .Knight .Black))
  let b := setCell b 0 2 (some (Piece.new .Bishop .Black))
  let b := setCell b 0 3 (some (Piece.new .Queen .Black))
  let b := setCell b 0 4 (some (Piece.new .King .Black))
  let b := setCell b 0 5 (some (Piece.new .Bishop .Black))
  let b := setCell b 0 6 (some (Piece.new .Knight .Black))
  let b := setCell b 0 7 (some (Piece.new .Rook .Black))
  let b := fillRow b 1 (Piece.new .Pawn .Black)
  let b := fillRow b 6 (Piece.new .Pawn .White)
  let b := setCell b 7 0 (some (Piece.new .Rook .White))
  let b := setCell b 7 1 (some (Piece.new .Knight .White))
  let b := setCell b 7 2 (some (Piece.new .Bishop .White))
  let b := setCell b 7 3 (some (Piece.new .Queen .White))
  let b := setCell b 7 4 (some (Piece.new .King .White))
  let b := setCell b 7 5 (some (Piece.new .Bishop .White))
  let b := setCell b 7 6 (some (Piece.new .Knight .White))
  let b := setCell b 7 7 (some (Piece.new .Rook .White))
  b

/-- Factory `BoardFactory::create_standard_position` of `src/board.rs`: White
back rank on row 0, White pawns on row 1, Black pawns on row 6, Black back
rank on row 7 (the opposite color assignment to the engine factory). -/
def Top.create_standard_position : BoardGame :=
  let b := emptyBoard
  let b := setCell b 0 0 (some (Piece.new .Rook .White))
  let b := setCell b 0 1 (some (Piece.new .Knight .White))
  let b := setCell b 0 2 (some (Piece.new .Bishop .White))
  let b := setCell b 0 3 (some (Piece.new .Queen .White))
  let b := setCell b 0 4 (some (Piece.new .King .White))
  let b := setCell b 0 5 (some (Piece.new .Bishop .White))
  let b := setCell b 0 6 (some (Piece.new .Knight .White))
  let b := setCell b 0 7 (some (Piece.new .Rook .White))
  let b := fillRow b 1 (Piece.new .Pawn .White)
  let b := fillRow b 6 (Piece.new .Pawn .Black)
  let b := setCell b 7 0 (some (Piece.new .Rook .Black))
  let b := setCell b 7 1 (some (Piece.new .Knight .Black))
  let b := setCell b 7 2 (some (Piece.new .Bishop .Black))
  let b := setCell b 7 3 (some (Piece.new .Queen .Black))
  let b := setCell b 7 4 (some (Piece.new .King .Black))
  let b := setCell b 7 5 (some (Piece.new .Bishop .Black))
  let b := setCell b 7 6 (some (Piece.new .Knight .Black))
  let b := setCell b 7 7 (some (Piece.new .Rook .Black))
  b

/-- The ray-walking loop of the Rook and Bishop branches of
`src/engine/chess_move.rs` (`while let Some(next) = current.offset(dy, dx)`).
The source body never updates `current`, so each iteration restarts from the
same square; the recursion here mirrors that by passing `current` unchanged. -/
def Engine.walkNoStep (b : BoardGame) (target : Square) (dy dx : Int)
    (current : Square) : Nat → RResult
  | 0 => .rdiverge
  | fuel + 1 =>
    match Square.offset current dy dx with
    | none => .rok
    | some next =>
      if next = target then .rok
      else
        match getCell? b (Square.row next) (Square.col next) with
        | none => .rpanic
        | some (some _) => .rerr .PieceBlocking
        | some none => Engine.walkNoStep b target dy dx current fuel

/-- The ray-walking loop of the Queen branch of `src/engine/chess_move.rs`;
unlike the Rook and Bishop loops it does update `current = next`. -/
def Engine.walkStep (b : BoardGame) (target : Square) (dy dx : Int)
    (current : Square) : Nat → RResult
  | 0 => .rdiverge
  | fuel + 1 =>
    match Square.offset current dy dx with
    | none => .rok
    | some next =>
      if next = target then .rok
      else
        match getCell? b (Square.row next) (Square.col next) with
        | none => .rpanic
        | some (some _) => .rerr .PieceBlocking
        | some none => Engine.walkStep b target dy dx next fuel

/-- The per-piece rule block of `src/engine/chess_move.rs` (`match
piece.piece_type`), with the repeated accessor calls `move_.from.row()`,
`move_.from.col()`, `move_.to.row()`, `move_.to.col()` passed in as
`fR fC tR tC` and the capture flag of step 3 as `isCapture`. -/
def Engine.pieceRule (b : BoardGame) (piece : Piece) (fromSq toSq : Square)
    (fR fC tR tC : Nat) (isCapture : Bool) (fuel : Nat) : RResult :=
  match piece.piece_type with
  | .Pawn =>
    if isCapture then
      match piece.color with
      | .White =>
        match checkedSub fR 1 with
        | none => .rpanic
        | some r1 =>
          if tR = r1 then
            match checkedSub fC 1 with
            | none => .rpanic
            | some c1 =>
              if tC = c1 ∨ tC = fC + 1 then .rok
              else .rerr .InvalidPawnCapture
          else .rerr .InvalidPawnCapture
      | .Black =>
        if tR = fR + 1 then
          match checkedSub fC 1 with
          | none => .rpanic
          | some c1 =>
            if tC = c1 ∨ tC = fC + 1 then .rok
            else .rerr .InvalidPawnCapture
        else .rerr .InvalidPawnCapture
    else
      match piece.color with
      | .White =>
        match checkedSub fR 1 with
        | none => .rpanic
        | some r1 =>
          let validSingle := tR = r1 ∧ tC = fC
          match getCell? b r1 fC with
          | none => .rpanic
          | some blockCell =>
            match checkedSub fR 2 with
            | none => .rpanic
            | some r2 =>
              let validDouble := tR = r2 ∧ tC = fC ∧ fR = 6 ∧ blockCell = none
              if ¬ validSingle ∧ ¬ validDouble then .rerr .InvalidPawnMove
              else .rok
      | .Black =>
        let validSingle := tR = fR + 1 ∧ tC = fC
        match getCell? b (fR + 1) fC with
        | none => .rpanic
        | some blockCell =>
          let validDouble := tR = fR + 2 ∧ tC = fC ∧ fR = 1 ∧ blockCell = none
          if ¬ validSingle ∧ ¬ validDouble then .rerr .InvalidPawnMove
          else .rok
  | .Rook =>
    let dx := Int.sign ((tC : Int) - (fC : Int))
    let dy := Int.sign ((tR : Int) - (fR : Int))
    if dx ≠ 0 ∧ dy ≠ 0 then .rerr .InvalidRookMove
    else Engine.walkNoStep b toSq dy dx fromSq fuel
  | .Knight =>
    let rowDiff := ((tR : Int) - (fR : Int)).natAbs
    let colDiff := ((tC : Int) - (fC : Int)).natAbs
    if ¬ ((rowDiff = 2 ∧ colDiff = 1) ∨ (rowDiff = 1 ∧ colDiff = 2)) then
      .rerr .InvalidKnightMove
    else .rok
  | .Bishop =>
    let rowDiff := ((tR : Int) - (fR : Int)).natAbs
    let colDiff := ((tC : Int) - (fC : Int)).natAbs
    if rowDiff ≠ colDiff then .rerr .InvalidBishopMove
    else
      let dx := Int.sign ((tC : Int) - (fC : Int))
      let dy := Int.sign ((tR : Int) - (fR : Int))
      Engine.walkNoStep b toSq dy dx fromSq fuel
  | .King =>
    let rowDiff := ((tR : Int) - (fR : Int)).natAbs
    let colDiff := ((tC : Int) - (fC : Int)).natAbs
    if 1 < rowDiff ∨ 1 < colDiff then .rerr .InvalidKingMove
    else .rok
  | .Queen =>
    let dx := Int.sign ((tC : Int) - (fC : Int))
    let dy := Int.sign ((tR : Int) - (fR : Int))
    let rowDiff := ((tR : Int) - (fR : Int)).natAbs
    let colDiff := ((tC : Int) - (fC : Int)).natAbs
    let isStraight := (dx = 0 ∧ dy ≠ 0) ∨ (dx ≠ 0 ∧ dy = 0)
    let isDiagonal := rowDiff = colDiff
    if ¬ isStraight ∧ ¬ isDiagonal then .rerr .InvalidQueenMove
    else Engine.walkStep b toSq dy dx fromSq fuel

/-- Function `is_valid_move` of `src/engine/chess_move.rs`: the ordered checks
no-piece-at-source, same-position, capture-own-piece, then the per-piece rule
block. -/
def Engine.is_valid_move (b : BoardGame) (mv : Engine.ChessMove) (fuel : Nat) :
    RResult :=
  match getCell? b (Square.row mv.fromSq) (Square.col mv.fromSq) with
  | none => .rpanic
  | some none => .rerr .NoPieceAtSource
  | some (some piece) =>
    if mv.toSq = mv.fromSq then .rerr .SamePosition
    else
      match getCell? b (Square.row mv.toSq) (Square.col mv.toSq) with
      | none => .rpanic
      | some (some destPiece) =>
        if piece.color = destPiece.color then .rerr .CaptureOwnPiece
        else
          Engine.pieceRule b piece mv.fromSq mv.toSq
            (Square.row mv.fromSq) (Square.col mv.fromSq)
            (Square.row mv.toSq) (Square.col mv.toSq) true fuel
      | some none =>
        Engine.pieceRule b piece mv.fromSq mv.toSq
          (Square.row mv.fromSq) (Square.col mv.fromSq)
          (Square.row mv.toSq) (Square.col mv.toSq) false fuel

/-- Function `make_move` of `src/engine/board.rs`: validate, then on success
take the piece from the source cell and write it to the destination.  The
source wraps a failure reason into a formatted string; the embedding keeps
the reason itself.  The board is returned alongside the outcome. -/
def Engine.make_move (b : BoardGame) (mv : Engine.ChessMove) (fuel : Nat) :
    RResult × BoardGame :=
  match Engine.is_valid_move b mv fuel with
  | .rok =>
    let piece := getCellD b (Square.row mv.fromSq) (Square.col mv.fromSq)
    let b1 := setCell b (Square.row mv.fromSq) (Square.col mv.fromSq) none
    let b2 := setCell b1 (Square.row mv.toSq) (Square.col mv.toSq) piece
    (.rok, b2)
  | r => (r, b)

/-- The ray-walking loop shared by the Rook, Bishop and Queen branches of
`src/chess_move.rs` (`while current != move_.to`): step `current` by the
direction, then test the occupancy of the stepped-to cell — including the
destination cell itself. -/
def Top.walk (b : BoardGame) (target : Position) (dy dx : Int)
    (current : Position) : Nat → RResult
  | 0 => .rdiverge
  | fuel + 1 =>
    if current = target then .rok
    else
      let ncol := asUsize ((current.column : Int) + dx)
      let nrow := asUsize ((current.row : Int) + dy)
      match getCell? b nrow ncol with
      | none => .rpanic
      | some (some _) => .rerr .PieceBlocking
      | some none => Top.walk b target dy dx ⟨nrow, ncol⟩ fuel

/-- The per-piece rule block of `src/chess_move.rs` (`match piece.piece_type`),
with the repeated field reads `move_.from.row`, `move_.from.column`,
`move_.to.row`, `move_.to.column` passed in as `fR fC tR tC`. -/
def Top.pieceRule (b : BoardGame) (piece : Piece) (fromP toP : Position)
    (fR fC tR tC : Nat) (isCapture : Bool) (fuel : Nat) : RResult :=
  match piece.piece_type with
  | .Pawn =>
    if isCapture then
      match piece.color with
      | .White =>
        match checkedSub fR 1 with
        | none => .rpanic
        | some r1 =>
          if tR = r1 then
            match checkedSub fC 1 with
            | none => .rpanic
            | some c1 =>
              if tC = c1 ∨ tC = fC + 1 then .rok
              else .rerr .InvalidPawnCapture
          else .rerr .InvalidPawnCapture
      | .Black =>
        if tR = fR + 1 then
          match checkedSub fC 1 with
          | none => .rpanic
          | some c1 =>
            if tC = c1 ∨ tC = fC + 1 then .rok
            else .rerr .InvalidPawnCapture
        else .rerr .InvalidPawnCapture
    else
      match piece.color with
      | .White =>
        match checkedSub fR 1 with
        | none => .rpanic
        | some r1 =>
          let validSingle := tR = r1 ∧ tC = fC
          match getCell? b r1 fC with
          | none => .rpanic
          | some blockCell =>
            match checkedSub fR 2 with
            | none => .rpanic
            | some r2 =>
              let validDouble := tR = r2 ∧ tC = fC ∧ fR = 6 ∧ blockCell = none
              if ¬ validSingle ∧ ¬ validDouble then .rerr .InvalidPawnMove
              else .rok
      | .Black =>
        let validSingle := tR = fR + 1 ∧ tC = fC
        match getCell? b (fR + 1) fC with
        | none => .rpanic
        | some blockCell =>
          let validDouble := tR = fR + 2 ∧ tC = fC ∧ fR = 1 ∧ blockCell = none
          if ¬ validSingle ∧ ¬ validDouble then .rerr .InvalidPawnMove
          else .rok
  | .Rook =>
    let dx := Int.sign ((tC : Int) - (fC : Int))
    let dy := Int.sign ((tR : Int) - (fR : Int))
    if dx ≠ 0 ∧ dy ≠ 0 then .rerr .InvalidRookMove
    else Top.walk b toP dy dx fromP fuel
  | .Knight =>
    let rowDiff := ((tR : Int) - (fR : Int)).natAbs
    let colDiff := ((tC : Int) - (fC : Int)).natAbs
    if ¬ ((rowDiff = 2 ∧ colDiff = 1) ∨ (rowDiff = 1 ∧ colDiff = 2)) then
      .rerr .InvalidKnightMove
    else .rok
  | .Bishop =>
    let rowDiff := ((tR : Int) - (fR : Int)).natAbs
    let colDiff := ((tC : Int) - (fC : Int)).natAbs
    if rowDiff ≠ colDiff then .rerr .InvalidBishopMove
    else
      let dx := Int.sign ((tC : Int) - (fC : Int))
      let dy := Int.sign ((tR : Int) - (fR : Int))
      Top.walk b toP dy dx fromP fuel
  | .King =>
    let rowDiff := ((tR : Int) - (fR : Int)).natAbs
    let colDiff := ((tC : Int) - (fC : Int)).natAbs
    if 1 < rowDiff ∨ 1 < colDiff then .rerr .InvalidKingMove
    else .rok
  | .Queen =>
    let dx := Int.sign ((tC : Int) - (fC : Int))
    let dy := Int.sign ((tR : Int) - (fR : Int))
    let rowDiff := ((tR : Int) - (fR : Int)).natAbs
    let colDiff := ((tC : Int) - (fC : Int)).natAbs
    let isStraight := (dx = 0 ∧ dy ≠ 0) ∨ (dx ≠ 0 ∧ dy = 0)
    let isDiagonal := rowDiff = colDiff
    if ¬ isStraight ∧ ¬ isDiagonal then .rerr .InvalidQueenMove
    else Top.walk b toP dy dx fromP fuel

/-- Function `is_valid_move` of `src/chess_move.rs`: a bounds check on both
positions, then the ordered checks no-piece-at-source, same-position,
capture-own-piece, then the per-piece rule block. -/
def Top.is_valid_move (b : BoardGame) (mv : Top.ChessMove) (fuel : Nat) :
    RResult :=
  if ¬ (mv.fromP.row ≤ 7 ∧ mv.fromP.column ≤ 7) ∨
     ¬ (mv.toP.row ≤ 7 ∧ mv.toP.column ≤ 7) then .rerr .OutOfBounds
  else
    match getCell? b mv.fromP.row mv.fromP.column with
    | none => .rpanic
    | some none => .rerr .NoPieceAtSource
    | some (some piece) =>
      if mv.toP = mv.fromP then .rerr .SamePosition
      else
        match getCell? b mv.toP.row mv.toP.column with
        | none => .rpanic
        | some (some destPiece) =>
          if piece.color = destPiece.color then .rerr .CaptureOwnPiece
          else
            Top.pieceRule b piece mv.fromP mv.toP
              mv.fromP.row mv.fromP.column mv.toP.row mv.toP.column true fuel
        | some none =>
          Top.pieceRule b piece mv.fromP mv.toP
            mv.fromP.row mv.fromP.column mv.toP.row mv.toP.column false fuel

/-! ## Helper lemmas about the board and square primitives -/

theorem getCell?_pos (b : BoardGame) {r c : Nat} (hr : r < 8) (hc : c < 8) :
    getCell? b r c = some (getCellD b r c) :=
  if_pos ⟨hr, hc⟩

theorem getCell?_some_bounds {b : BoardGame} {r c : Nat} {o : Option Piece}
    (h : getCell? b r c = some o) : r < 8 ∧ c < 8 ∧ getCellD b r c = o := by
  unfold getCell? at h
  split at h
  · next hb => injection h with h; exact ⟨hb.1, hb.2, h⟩
  · cases h

theorem Square.row_mk (r c : Nat) (hc : c < 8) : Square.row (r * 8 + c) = r := by
  unfold Square.row
  omega

theorem Square.col_mk (r c : Nat) (hc : c < 8) : Square.col (r * 8 + c) = c := by
  unfold Square.col
  omega

theorem getCellD_setCell_eq (b : BoardGame) {r c : Nat} (v : Option Piece)
    (hr : r < 8) (hc : c < 8) : getCellD (setCell b r c v) r c = v := by
  unfold getCellD setCell
  rw [dif_pos ⟨hr, hc⟩]
  simp

theorem getCellD_setCell_ne (b : BoardGame) (r c r' c' : Nat) (v : Option Piece)
    (h : ¬ (r' = r ∧ c' = c)) :
    getCellD (setCell b r c v) r' c' = getCellD b r' c' := by
  unfold getCellD setCell
  by_cases hb : r' < 8 ∧ c' < 8
  · rw [dif_pos hb, dif_pos hb, if_neg h]
  · rw [dif_neg hb, dif_neg hb]

theorem setCell_apply_ne (b : BoardGame) {r c : Nat} (v : Option Piece)
    (i j : Fin 8) (h : ¬ (i.val = r ∧ j.val = c)) :
    setCell b r c v i j = b i j := by
  unfold setCell
  rw [if_neg h]

/-- Since the Rook and Bishop loops of `src/engine/chess_move.rs` never update
`current`, every iteration re-examines the same neighbouring square: as soon
as that square is neither the destination nor occupied, the loop runs forever
(no fuel suffices). -/
theorem Engine.walkNoStep_stuck (b : BoardGame) (target : Square) (dy dx : Int)
    (current next : Square) (hoff : Square.offset current dy dx = some next)
    (hne : next ≠ target)
    (hcell : getCell? b (Square.row next) (Square.col next) = some none) :
    ∀ fuel, Engine.walkNoStep b target dy dx current fuel = .rdiverge := by
  intro fuel
  induction fuel with
  | zero => rfl
  | succ n ih =>
    rw [Engine.walkNoStep, hoff]
    simp only [hne, if_false, if_neg hne, hcell]
    exact ih

/-! ## Concrete boards used by individual claims -/

/-- A board holding only a White Rook at (0,0). -/
def rookOnlyBoard : BoardGame :=
  setCell emptyBoard 0 0 (some (Piece.new .Rook .White))

/-- A board holding a White Rook at (0,0) and a Black Pawn at (0,5):
a capture along a clear horizontal line. -/
def rookFarCaptureBoard : BoardGame :=
  setCell (setCell emptyBoard 0 0 (some (Piece.new .Rook .White))) 0 5
    (some (Piece.new .Pawn .Black))

/-- A board holding only a White Pawn at (0,4): a pawn on the last rank in
its movement direction. -/
def pawnLastRankBoard : BoardGame :=
  setCell emptyBoard 0 4 (some (Piece.new .Pawn .White))

/-- A board with a White Pawn at (6,4) and a White Knight at (5,4): a
double-step advance whose intermediate cell is blocked. -/
def blockedPawnBoard : BoardGame :=
  setCell (setCell emptyBoard 6 4 (some (Piece.new .Pawn .White))) 5 4
    (some (Piece.new .Knight .White))

/-- A board with a White Rook at (0,0) and a Black Pawn at (0,1): an adjacent
rook capture. -/
def rookAdjacentCaptureBoard : BoardGame :=
  setCell (setCell emptyBoard 0 0 (some (Piece.new .Rook .White))) 0 1
    (some (Piece.new .Pawn .Black))

/-! ## Claim theorems -/

/-- C1.  The claim states that for a shape-legal rook move the validators
report piece-blocking exactly when a cell strictly between source and
destination is occupied, and that destination occupancy never causes
piece-blocking.  The code violates this on the rook capture (0,0) to (0,5)
over a clear line: the top-level `is_valid_move` steps onto and tests the
destination cell, so the capture is reported as piece-blocking, while the
engine `is_valid_move` never advances `current` in its rook loop and fails to
terminate for any amount of fuel. -/
theorem c1_rook_blocking_eval :
    Top.is_valid_move rookFarCaptureBoard ⟨⟨0, 0⟩, ⟨0, 5⟩⟩ 8 = .rerr .PieceBlocking ∧
    getCellD rookFarCaptureBoard 0 1 = none ∧
    getCellD rookFarCaptureBoard 0 2 = none ∧
    getCellD rookFarCaptureBoard 0 3 = none ∧
    getCellD rookFarCaptureBoard 0 4 = none ∧
    ∀ fuel, Engine.is_valid_move rookFarCaptureBoard ⟨0, 5⟩ fuel = .rdiverge := by
  refine ⟨by decide, by decide, by decide, by decide, by decide, ?_⟩
  intro fuel
  have h : Engine.is_valid_move rookFarCaptureBoard ⟨0, 5⟩ fuel =
      Engine.walkNoStep rookFarCaptureBoard 5 0 1 0 fuel := rfl
  rw [h]
  exact Engine.walkNoStep_stuck rookFarCaptureBoard 5 0 1 0 1 (by decide) (by decide)
    (by decide) fuel

/-- C2.  The claim states that `validate` always terminates, with the
ray-walking loops reaching the destination or an occupied cell within 7
steps.  The engine rook loop never updates `current`, so for the rook move
(0,0) to (0,2) on an otherwise empty board it re-examines the vacant square
(0,1) forever: no fuel bound makes it return. -/
theorem c2_engine_rook_walk_diverges :
    ∀ fuel, Engine.is_valid_move rookOnlyBoard ⟨0, 2⟩ fuel = .rdiverge := by
  intro fuel
  have h : Engine.is_valid_move rookOnlyBoard ⟨0, 2⟩ fuel =
      Engine.walkNoStep rookOnlyBoard 2 0 1 0 fuel := rfl
  rw [h]
  exact Engine.walkNoStep_stuck rookOnlyBoard 2 0 1 0 1 (by decide) (by decide)
    (by decide) fuel

/-- C3.  The claim states that `validate` never aborts with an uncatchable
fault, naming a pawn on the last rank of its movement direction.  Both
implementations evaluate `move_.from.row() - 1` in unsigned arithmetic for a
White pawn: with the pawn on row 0 the subtraction underflows (and the
subsequent `board[from.row - 1]` index is out of range), a panic rather than
an error value. -/
theorem c3_pawn_last_rank_panics :
    (∀ fuel, Engine.is_valid_move pawnLastRankBoard ⟨4, 12⟩ fuel = .rpanic) ∧
    (∀ fuel, Top.is_valid_move pawnLastRankBoard ⟨⟨0, 4⟩, ⟨1, 4⟩⟩ fuel = .rpanic) :=
  ⟨fun _ => rfl, fun _ => rfl⟩

/-- C4.  On the engine standard board, the White Pawn double step from
(6,4) to (4,4) — e2e4 — is accepted by the engine `is_valid_move`, and
`make_move` leaves (6,4) vacant and puts a White Pawn on (4,4). -/
theorem c4_e2e4_legal_and_applied :
    Engine.is_valid_move Engine.create_standard_position ⟨6 * 8 + 4, 4 * 8 + 4⟩ 8 = .rok ∧
    (Engine.make_move Engine.create_standard_position ⟨6 * 8 + 4, 4 * 8 + 4⟩ 8).1 = .rok ∧
    getCellD (Engine.make_move Engine.create_standard_position ⟨6 * 8 + 4, 4 * 8 + 4⟩ 8).2 6 4 = none ∧
    getCellD (Engine.make_move Engine.create_standard_position ⟨6 * 8 + 4, 4 * 8 + 4⟩ 8).2 4 4 =
      some (Piece.new .Pawn .White) := by
  refine ⟨by decide, by decide, by decide, by decide⟩

/-- C5.  `make_move` of `src/engine/board.rs` is all-or-nothing: when
validation reports a failure, the same failure is returned and the board
value is returned untouched; the board changes only on success. -/
theorem c5_apply_all_or_nothing (b : BoardGame) (mv : Engine.ChessMove) (fuel : Nat) :
    (∀ e, Engine.is_valid_move b mv fuel = .rerr e →
       Engine.make_move b mv fuel = (.rerr e, b)) ∧
    (Engine.is_valid_move b mv fuel ≠ .rok → (Engine.make_move b mv fuel).2 = b) := by
  constructor
  · intro e h
    simp [Engine.make_move, h]
  · intro h
    cases hv : Engine.is_valid_move b mv fuel with
    | rok => exact absurd hv h
    | rerr e => simp [Engine.make_move, hv]
    | rpanic => simp [Engine.make_move, hv]
    | rdiverge => simp [Engine.make_move, hv]

/-- Witness for C5: on the empty board every move fails with
no-piece-at-source and the board is returned unchanged. -/
theorem c5_apply_all_or_nothing_witness :
    Engine.make_move emptyBoard ⟨0, 9⟩ 8 = (.rerr .NoPieceAtSource, emptyBoard) :=
  (c5_apply_all_or_nothing emptyBoard ⟨0, 9⟩ 8).1 .NoPieceAtSource (by decide)

/-- Facts recoverable from a successful validation: both squares denote
in-range cells, the squares differ, and the source cell is occupied. -/
theorem Engine.is_valid_move_rok_facts (b : BoardGame) (mv : Engine.ChessMove)
    (fuel : Nat) (h : Engine.is_valid_move b mv fuel = .rok) :
    Square.row mv.fromSq < 8 ∧ Square.col mv.fromSq < 8 ∧
    Square.row mv.toSq < 8 ∧ Square.col mv.toSq < 8 ∧
    mv.toSq ≠ mv.fromSq ∧
    ∃ p, getCellD b (Square.row mv.fromSq) (Square.col mv.fromSq) = some p := by
  unfold Engine.is_valid_move at h
  split at h
  · cases h
  · cases h
  · next piece heqf =>
    obtain ⟨hfr, hfc, hfd⟩ := getCell?_some_bounds heqf
    split at h
    · cases h
    · next hne =>
      split at h
      · cases h
      · next destPiece heqt =>
        obtain ⟨htr, htc, _⟩ := getCell?_some_bounds heqt
        exact ⟨hfr, hfc, htr, htc, hne, piece, hfd⟩
      · next heqt =>
        obtain ⟨htr, htc, _⟩ := getCell?_some_bounds heqt
        exact ⟨hfr, hfc, htr, htc, hne, piece, hfd⟩

/-- C7.  When the engine validation succeeds, `make_move` vacates the source
cell, places the exact source piece at the destination (overwriting any
occupant), and leaves every other cell of the board unchanged. -/
theorem c7_apply_moves_piece_frame (b : BoardGame) (mv : Engine.ChessMove)
    (fuel : Nat) (h : Engine.is_valid_move b mv fuel = .rok) :
    ∃ p : Piece,
      getCellD b (Square.row mv.fromSq) (Square.col mv.fromSq) = some p ∧
      (Engine.make_move b mv fuel).1 = .rok ∧
      getCellD (Engine.make_move b mv fuel).2
        (Square.row mv.fromSq) (Square.col mv.fromSq) = none ∧
      getCellD (Engine.make_move b mv fuel).2
        (Square.row mv.toSq) (Square.col mv.toSq) = some p ∧
      ∀ i j : Fin 8,
        ¬ (i.val = Square.row mv.fromSq ∧ j.val = Square.col mv.fromSq) →
        ¬ (i.val = Square.row mv.toSq ∧ j.val = Square.col mv.toSq) →
        (Engine.make_move b mv fuel).2 i j = b i j := by
  obtain ⟨hfr, hfc, htr, htc, hne, p, hp⟩ :=
    Engine.is_valid_move_rok_facts b mv fuel h
  have hmm : Engine.make_move b mv fuel =
      (.rok, setCell (setCell b (Square.row mv.fromSq) (Square.col mv.fromSq) none)
        (Square.row mv.toSq) (Square.col mv.toSq)
        (getCellD b (Square.row mv.fromSq) (Square.col mv.fromSq))) := by
    simp [Engine.make_move, h]
  have hpairs : ¬ (Square.row mv.fromSq = Square.row mv.toSq ∧
      Square.col mv.fromSq = Square.col mv.toSq) := by
    intro hcontra
    apply hne
    have hN : ∀ x y : Nat, x / 8 = y / 8 → x % 8 = y % 8 → x = y := by omega
    exact (hN mv.toSq mv.fromSq hcontra.1.symm hcontra.2.symm)
  refine ⟨p, hp, ?_, ?_, ?_, ?_⟩
  · rw [hmm]
  · rw [hmm]
    have := getCellD_setCell_ne
      (setCell b (Square.row mv.fromSq) (Square.col mv.fromSq) none)
      (Square.row mv.toSq) (Square.col mv.toSq)
      (Square.row mv.fromSq) (Square.col mv.fromSq)
      (getCellD b (Square.row mv.fromSq) (Square.col mv.fromSq)) hpairs
    rw [this, getCellD_setCell_eq _ _ hfr hfc]
  · rw [hmm, getCellD_setCell_eq _ _ htr htc, hp]
  · intro i j hif hit
    rw [hmm]
    show setCell (setCell b (Square.row mv.fromSq) (Square.col mv.fromSq) none)
      (Square.row mv.toSq) (Square.col mv.toSq)
      (getCellD b (Square.row mv.fromSq) (Square.col mv.fromSq)) i j = b i j
    rw [setCell_apply_ne _ _ i j hit, setCell_apply_ne _ _ i j hif]

/-- Witness for C7: applying e2e4 on the engine standard board. -/
theorem c7_apply_moves_piece_frame_witness :
    ∃ p : Piece,
      getCellD Engine.create_standard_position 6 4 = some p ∧
      (Engine.make_move Engine.create_standard_position ⟨6 * 8 + 4, 4 * 8 + 4⟩ 8).1 = .rok ∧
      getCellD (Engine.make_move Engine.create_standard_position ⟨6 * 8 + 4, 4 * 8 + 4⟩ 8).2 6 4 = none ∧
      getCellD (Engine.make_move Engine.create_standard_position ⟨6 * 8 + 4, 4 * 8 + 4⟩ 8).2 4 4 = some p ∧
      ∀ i j : Fin 8, ¬ (i.val = 6 ∧ j.val = 4) → ¬ (i.val = 4 ∧ j.val = 4) →
        (Engine.make_move Engine.create_standard_position ⟨6 * 8 + 4, 4 * 8 + 4⟩ 8).2 i j =
          Engine.create_standard_position i j := by
  have h := c7_apply_moves_piece_frame Engine.create_standard_position
    ⟨6 * 8 + 4, 4 * 8 + 4⟩ 8 (by decide)
  simpa [Square.row, Square.col] using h

/-- On a White pawn double step from the starting rank whose intermediate cell
is occupied and whose destination is vacant, the engine validation reports
invalid-pawn-move (both conjuncts of `valid_single_move` and
`valid_double_move` are false; no piece-blocking arises in the pawn branch). -/
theorem Engine.pawn_double_step_blocked_white (b : BoardGame) (c fuel : Nat)
    (hc : c < 8)
    (h6 : getCellD b 6 c = some (Piece.new .Pawn .White))
    (h5 : getCellD b 5 c ≠ none)
    (h4 : getCellD b 4 c = none) :
    Engine.is_valid_move b ⟨6 * 8 + c, 4 * 8 + c⟩ fuel = .rerr .InvalidPawnMove := by
  obtain ⟨q, hq⟩ : ∃ q, getCellD b 5 c = some q := by
    cases hx : getCellD b 5 c
    · exact absurd hx h5
    · exact ⟨_, rfl⟩
  simp only [Engine.is_valid_move, Engine.pieceRule,
    Square.row_mk 6 c hc, Square.col_mk 6 c hc,
    Square.row_mk 4 c hc, Square.col_mk 4 c hc,
    getCell?_pos b (by omega : (6:Nat) < 8) hc,
    getCell?_pos b (by omega : (4:Nat) < 8) hc,
    getCell?_pos b (by omega : (5:Nat) < 8) hc,
    h6, h5, h4, hq, checkedSub]
  rw [if_neg (show ¬(4 * 8 + c = 6 * 8 + c) by omega)]
  simp [Piece.new, getCell?_pos b (by omega : (5:Nat) < 8) hc, hq]

/-- Black version of `Engine.pawn_double_step_blocked_white`. -/
theorem Engine.pawn_double_step_blocked_black (b : BoardGame) (c fuel : Nat)
    (hc : c < 8)
    (hb1 : getCellD b 1 c = some (Piece.new .Pawn .Black))
    (hb2 : getCellD b 2 c ≠ none)
    (hb3 : getCellD b 3 c = none) :
    Engine.is_valid_move b ⟨1 * 8 + c, 3 * 8 + c⟩ fuel = .rerr .InvalidPawnMove := by
  obtain ⟨q, hq⟩ : ∃ q, getCellD b 2 c = some q := by
    cases hx : getCellD b 2 c
    · exact absurd hx hb2
    · exact ⟨_, rfl⟩
  simp only [Engine.is_valid_move, Engine.pieceRule,
    Square.row_mk 1 c hc, Square.col_mk 1 c hc,
    Square.row_mk 3 c hc, Square.col_mk 3 c hc,
    getCell?_pos b (by omega : (1:Nat) < 8) hc,
    getCell?_pos b (by omega : (3:Nat) < 8) hc,
    getCell?_pos b (by omega : (2:Nat) < 8) hc,
    hb1, hb2, hb3, hq, checkedSub]
  rw [if_neg (show ¬(3 * 8 + c = 1 * 8 + c) by omega)]
  simp [Piece.new, getCell?_pos b (by omega : (2:Nat) < 8) hc, hq]

/-- A White pawn single step onto an opposing piece directly ahead is treated
as a capture and rejected as invalid-pawn-capture (columns at least 1, since
the capture check evaluates `from.col - 1`). -/
theorem Engine.pawn_forward_capture_white (b : BoardGame) (r c fuel : Nat)
    (q : Piece) (hr1 : 1 ≤ r) (hr : r < 8) (hc1 : 1 ≤ c) (hc : c < 8)
    (hp : getCellD b r c = some (Piece.new .Pawn .White))
    (hq : getCellD b (r - 1) c = some q) (hqc : q.color = .Black) :
    Engine.is_valid_move b ⟨r * 8 + c, (r - 1) * 8 + c⟩ fuel =
      .rerr .InvalidPawnCapture := by
  simp only [Engine.is_valid_move, Engine.pieceRule,
    Square.row_mk r c hc, Square.col_mk r c hc,
    Square.row_mk (r - 1) c hc, Square.col_mk (r - 1) c hc,
    getCell?_pos b hr hc, getCell?_pos b (by omega : r - 1 < 8) hc,
    hp, hq]
  rw [if_neg (show ¬((r - 1) * 8 + c = r * 8 + c) by omega)]
  simp [Piece.new, hqc, checkedSub, hr1, hc1,
    (show ¬(c = c - 1) by omega), (show ¬(c = c + 1) by omega)]

/-- Black version of `Engine.pawn_forward_capture_white`. -/
theorem Engine.pawn_forward_capture_black (b : BoardGame) (r c fuel : Nat)
    (q : Piece) (hr : r < 7) (hc1 : 1 ≤ c) (hc : c < 8)
    (hp : getCellD b r c = some (Piece.new .Pawn .Black))
    (hq : getCellD b (r + 1) c = some q) (hqc : q.color = .White) :
    Engine.is_valid_move b ⟨r * 8 + c, (r + 1) * 8 + c⟩ fuel =
      .rerr .InvalidPawnCapture := by
  simp only [Engine.is_valid_move, Engine.pieceRule,
    Square.row_mk r c hc, Square.col_mk r c hc,
    Square.row_mk (r + 1) c hc, Square.col_mk (r + 1) c hc,
    getCell?_pos b (by omega : r < 8) hc, getCell?_pos b (by omega : r + 1 < 8) hc,
    hp, hq]
  rw [if_neg (show ¬((r + 1) * 8 + c = r * 8 + c) by omega)]
  simp [Piece.new, hqc, checkedSub, hc1,
    (show ¬(c = c - 1) by omega), (show ¬(c = c + 1) by omega)]

/-- C6 counterexample.  The claim states that a double-step pawn advance with
an occupied intermediate cell fails with piece-blocking.  On the board with a
White Pawn at (6,4), a White Knight at (5,4) and (4,4) vacant, the move
(6,4) to (4,4) is exactly such a blocked double step, yet the engine
validation returns invalid-pawn-move, not piece-blocking. -/
theorem c6_blocked_double_step_counterexample :
    getCellD blockedPawnBoard 6 4 = some (Piece.new .Pawn .White) ∧
    getCellD blockedPawnBoard 5 4 ≠ none ∧
    getCellD blockedPawnBoard 4 4 = none ∧
    Engine.is_valid_move blockedPawnBoard ⟨6 * 8 + 4, 4 * 8 + 4⟩ 8 =
      .rerr .InvalidPawnMove ∧
    Engine.is_valid_move blockedPawnBoard ⟨6 * 8 + 4, 4 * 8 + 4⟩ 8 ≠
      .rerr .PieceBlocking := by
  refine ⟨by decide, by decide, by decide, by decide, by decide⟩

/-- C6 (amended).  A blocked pawn advance never yields piece-blocking:
a double step from the starting rank with the intermediate cell occupied and
the destination vacant fails as invalid-pawn-move (both colors), and a single
step onto a cell occupied by the opposing color is treated as a capture and
fails as invalid-pawn-capture (both colors; source column at least 1 because
the capture check computes `from.col - 1` in unsigned arithmetic). -/
theorem c6_blocked_pawn_errors :
    (∀ (b : BoardGame) (c fuel : Nat), c < 8 →
       getCellD b 6 c = some (Piece.new .Pawn .White) →
       getCellD b 5 c ≠ none →
       getCellD b 4 c = none →
       Engine.is_valid_move b ⟨6 * 8 + c, 4 * 8 + c⟩ fuel = .rerr .InvalidPawnMove) ∧
    (∀ (b : BoardGame) (c fuel : Nat), c < 8 →
       getCellD b 1 c = some (Piece.new .Pawn .Black) →
       getCellD b 2 c ≠ none →
       getCellD b 3 c = none →
       Engine.is_valid_move b ⟨1 * 8 + c, 3 * 8 + c⟩ fuel = .rerr .InvalidPawnMove) ∧
    (∀ (b : BoardGame) (r c fuel : Nat) (q : Piece),
       1 ≤ r → r < 8 → 1 ≤ c → c < 8 →
       getCellD b r c = some (Piece.new .Pawn .White) →
       getCellD b (r - 1) c = some q → q.color = .Black →
       Engine.is_valid_move b ⟨r * 8 + c, (r - 1) * 8 + c⟩ fuel =
         .rerr .InvalidPawnCapture) ∧
    (∀ (b : BoardGame) (r c fuel : Nat) (q : Piece),
       r < 7 → 1 ≤ c → c < 8 →
       getCellD b r c = some (Piece.new .Pawn .Black) →
       getCellD b (r + 1) c = some q → q.color = .White →
       Engine.is_valid_move b ⟨r * 8 + c, (r + 1) * 8 + c⟩ fuel =
         .rerr .InvalidPawnCapture) :=
  ⟨Engine.pawn_double_step_blocked_white, Engine.pawn_double_step_blocked_black,
   Engine.pawn_forward_capture_white, Engine.pawn_forward_capture_black⟩

/-- Witness for C6: the blocked double step on `blockedPawnBoard` through the
first conjunct of the amended theorem. -/
theorem c6_blocked_pawn_errors_witness :
    Engine.is_valid_move blockedPawnBoard ⟨6 * 8 + 4, 4 * 8 + 4⟩ 11 =
      .rerr .InvalidPawnMove :=
  c6_blocked_pawn_errors.1 blockedPawnBoard 4 11 (by decide) (by decide)
    (by decide) (by decide)

/-- C8.  The claim states that cell parsing accepts exactly the file letters
'a' through 'h' and rank digits '1' through '8', naming 'h' and '8' as
accepted.  The engine `parse_position` matches with half-open byte ranges, so
"h8h7" (bytes 104, 56, 104, 55) is rejected with invalid-column and "a8a7"
(bytes 97, 56, 97, 55) with invalid-row, contradicting the claim and the
error messages of `src/engine/error.rs` themselves. -/
theorem c8_parse_rejects_file_h_rank_8 :
    Engine.parse_move [104, 56, 104, 55] = .error .InvalidColumn ∧
    Engine.parse_move [97, 56, 97, 55] = .error .InvalidRow ∧
    Engine.parse_move [103, 55, 103, 54] = .ok ⟨6 * 8 + 6, 5 * 8 + 6⟩ :=
  ⟨rfl, rfl, rfl⟩

/-- C9.  Square construction and offsetting preserve the in-range invariant:
`try_from` fails with out-of-bounds whenever a coordinate exceeds 7 and
succeeds on in-range pairs producing an in-range square, and `offset`
returns a square exactly when the shifted coordinates stay within [0,7],
that square carrying exactly the shifted in-range coordinates. -/
theorem c9_square_invariant :
    (∀ row col : Nat, 7 < row ∨ 7 < col →
       Square.try_from row col = .error .OutOfBounds) ∧
    (∀ row col : Nat, row < 8 → col < 8 →
       Square.try_from row col = .ok (row * 8 + col) ∧
       Square.row (row * 8 + col) < 8 ∧ Square.col (row * 8 + col) < 8) ∧
    (∀ (s : Nat) (dr dc : Int),
       ((Square.offset s dr dc).isSome ↔
         0 ≤ (Square.row s : Int) + dr ∧ (Square.row s : Int) + dr < 8 ∧
         0 ≤ (Square.col s : Int) + dc ∧ (Square.col s : Int) + dc < 8) ∧
       (∀ t : Nat, Square.offset s dr dc = some t →
          Square.row t < 8 ∧ Square.col t < 8 ∧
          (Square.row t : Int) = (Square.row s : Int) + dr ∧
          (Square.col t : Int) = (Square.col s : Int) + dc)) := by
  refine ⟨?_, ?_, ?_⟩
  · intro row col h
    unfold Square.try_from
    rw [if_neg (by omega)]
  · intro row col hr hc
    unfold Square.try_from
    rw [if_pos ⟨hr, hc⟩]
    refine ⟨rfl, ?_, ?_⟩
    · rw [Square.row_mk row col hc]; exact hr
    · rw [Square.col_mk row col hc]; exact hc
  · intro s dr dc
    constructor
    · simp only [Square.offset]
      by_cases hcond : 0 ≤ (Square.row s : Int) + dr ∧ (Square.row s : Int) + dr < 8 ∧
          0 ≤ (Square.col s : Int) + dc ∧ (Square.col s : Int) + dc < 8
      · rw [if_pos hcond]
        simp [hcond]
      · rw [if_neg hcond]
        simp [hcond]
    · intro t ht
      simp only [Square.offset] at ht
      split at ht
      · next hcond =>
        injection ht with ht
        simp only [Square.row, Square.col] at hcond ht ⊢
        have ht2 : (((↑(s / 8) : Int) + dr) * 8 + ((↑(s % 8) : Int) + dc)).toNat = t := ht
        rw [show (((↑(s / 8) : Int) + dr) * 8 + ((↑(s % 8) : Int) + dc)) =
          ((↑(s / 8) : Int) * 8 + dr * 8 + ↑(s % 8) + dc) from by ring] at ht2
        omega
      · cases ht

/-- Witness for C9: out-of-range rejection at (9,0), in-range construction at
(6,4), and the offset of square 52 by (-2,0). -/
theorem c9_square_invariant_witness :
    Square.try_from 9 0 = .error .OutOfBounds ∧
    (Square.try_from 6 4 = .ok (6 * 8 + 4) ∧
      Square.row (6 * 8 + 4) < 8 ∧ Square.col (6 * 8 + 4) < 8) ∧
    (Square.row 36 < 8 ∧ Square.col 36 < 8 ∧
      (Square.row 36 : Int) = (Square.row 52 : Int) + (-2) ∧
      (Square.col 36 : Int) = (Square.col 52 : Int) + 0) :=
  ⟨c9_square_invariant.1 9 0 (by decide),
   c9_square_invariant.2.1 6 4 (by decide) (by decide),
   (c9_square_invariant.2.2 52 (-2) 0).2 36 (by decide)⟩

/-- Color swap, relating the two standard-position factories. -/
def swapColor (p : Piece) : Piece :=
  ⟨p.piece_type, match p.color with | .White => .Black | .Black => .White⟩

/-- The piece kinds whose rule branches are textually identical in the two
`is_valid_move` implementations (no ray walking). -/
def nonSliding : Option Piece → Prop
  | none => True
  | some p => p.piece_type = .Pawn ∨ p.piece_type = .Knight ∨ p.piece_type = .King

/-- For a Pawn, Knight or King, the two per-piece rule blocks coincide. -/
theorem pieceRule_agree (b : BoardGame) (piece : Piece) (fromP toP : Position)
    (fromSq toSq : Square) (fR fC tR tC : Nat) (cap : Bool) (fuelT fuelE : Nat)
    (h : piece.piece_type = .Pawn ∨ piece.piece_type = .Knight ∨
      piece.piece_type = .King) :
    Top.pieceRule b piece fromP toP fR fC tR tC cap fuelT =
      Engine.pieceRule b piece fromSq toSq fR fC tR tC cap fuelE := by
  unfold Top.pieceRule Engine.pieceRule
  rcases h with h | h | h <;> rw [h]

/-- The two validators agree whenever the source cell holds no sliding piece:
both run the identical ordered pre-checks and, for Pawn, Knight and King, the
identical rule branch. -/
theorem valid_move_agree_nonSliding (b : BoardGame) (fr fc tr tc fuelT fuelE : Nat)
    (hfr : fr < 8) (hfc : fc < 8) (htr : tr < 8) (htc : tc < 8)
    (hnon : nonSliding (getCellD b fr fc)) :
    Top.is_valid_move b ⟨⟨fr, fc⟩, ⟨tr, tc⟩⟩ fuelT =
      Engine.is_valid_move b ⟨fr * 8 + fc, tr * 8 + tc⟩ fuelE := by
  have hN : ∀ x y z w : Nat, y < 8 → w < 8 → x * 8 + y = z * 8 + w → x = z ∧ y = w := by
    intro x y z w hy hw h
    omega
  simp only [Top.is_valid_move, Engine.is_valid_move,
    Square.row_mk fr fc hfc, Square.col_mk fr fc hfc,
    Square.row_mk tr tc htc, Square.col_mk tr tc htc,
    getCell?_pos b hfr hfc, getCell?_pos b htr htc]
  rw [if_neg (show ¬(¬(fr ≤ 7 ∧ fc ≤ 7) ∨ ¬(tr ≤ 7 ∧ tc ≤ 7)) by omega)]
  rcases hx : getCellD b fr fc with _ | piece
  · simp only [hx]
  · simp only [hx]
    rw [hx] at hnon
    by_cases heq : tr = fr ∧ tc = fc
    · obtain ⟨h1, h2⟩ := heq
      subst h1
      subst h2
      rw [if_pos rfl, if_pos rfl]
    · have hT : ¬((⟨tr, tc⟩ : Position) = ⟨fr, fc⟩) := by
        intro hcontra
        cases hcontra
        exact heq ⟨rfl, rfl⟩
      have hE : ¬((tr * 8 + tc : Square) = fr * 8 + fc) := by
        intro hcontra
        exact heq (hN tr tc fr fc htc hfc hcontra)
      rw [if_neg hT, if_neg hE]
      rcases hd : getCellD b tr tc with _ | dp
      · simp only [hd]
        exact pieceRule_agree b piece ⟨fr, fc⟩ ⟨tr, tc⟩ (fr * 8 + fc) (tr * 8 + tc)
          fr fc tr tc false fuelT fuelE hnon
      · simp only [hd]
        by_cases hcol : piece.color = dp.color
        · rw [if_pos hcol, if_pos hcol]
        · rw [if_neg hcol, if_neg hcol]
          exact pieceRule_agree b piece ⟨fr, fc⟩ ⟨tr, tc⟩ (fr * 8 + fc) (tr * 8 + tc)
            fr fc tr tc true fuelT fuelE hnon

/-- C10 counterexample.  The claim states that the two `is_valid_move`
implementations and the two `create_standard_position` factories coincide.
The factories disagree already at cell (0,0) (White Rook against Black Rook),
and on the adjacent rook capture (0,0) to (0,1) the top-level validator
reports piece-blocking while the engine validator accepts the move. -/
theorem c10_implementations_differ :
    getCellD Top.create_standard_position 0 0 ≠
      getCellD Engine.create_standard_position 0 0 ∧
    Top.is_valid_move rookAdjacentCaptureBoard ⟨⟨0, 0⟩, ⟨0, 1⟩⟩ 8 =
      .rerr .PieceBlocking ∧
    Engine.is_valid_move rookAdjacentCaptureBoard ⟨0, 1⟩ 8 = .rok := by
  refine ⟨by decide, by decide, by decide⟩

/-- C10 (amended).  The two factories produce the same board up to swapping
every piece's color, and the two validators return the same outcome for every
board and in-range move whose source cell is vacant or holds a Pawn, Knight
or King (the non-sliding pieces, whose rule branches are identical). -/
theorem c10_agreement_amended :
    (∀ r c : Fin 8,
       getCellD Engine.create_standard_position r.val c.val =
         (getCellD Top.create_standard_position r.val c.val).map swapColor) ∧
    (∀ (b : BoardGame) (fr fc tr tc fuelT fuelE : Nat),
       fr < 8 → fc < 8 → tr < 8 → tc < 8 →
       nonSliding (getCellD b fr fc) →
       Top.is_valid_move b ⟨⟨fr, fc⟩, ⟨tr, tc⟩⟩ fuelT =
         Engine.is_valid_move b ⟨fr * 8 + fc, tr * 8 + tc⟩ fuelE) :=
  ⟨by decide, valid_move_agree_nonSliding⟩

/-- Witness for C10: the pawn double step e2e4 on the engine standard board
is judged identically by the two validators. -/
theorem c10_agreement_amended_witness :
    Top.is_valid_move Engine.create_standard_position ⟨⟨6, 4⟩, ⟨4, 4⟩⟩ 9 =
      Engine.is_valid_move Engine.create_standard_position ⟨6 * 8 + 4, 4 * 8 + 4⟩ 9 :=
  c10_agreement_amended.2 Engine.create_standard_position 6 4 4 4 9 9 (by decide)
    (by decide) (by decide) (by decide) (Or.inl rfl)
